import Mathlib

/-!
Shallow embedding of the discovery-to-ingestion pipeline of the
`multimodal_edu` repository (files `app/discover_resources.py` and
`app/ingestion.py`), together with proofs about the embedded code.

External collaborators (HTTP fetching, the video-provider API, object
storage, the media-acquisition tool, clock readings) are passed in as
explicit parameters, exactly at the interfaces the Python code uses them.
-/

namespace MultimodalEdu

/-! ### Python string primitives

The Python code uses `str.lower`, `str.startswith`, `str.endswith`,
`in` (substring containment) and `str.lstrip("@")`.  We model strings by
Lean `String` and these operations over the underlying character lists. -/

/-- Python `s.startswith(p)`. -/
def strStartsWith (s p : String) : Bool := p.data.isPrefixOf s.data

/-- Python `s.endswith(p)`. -/
def strEndsWith (s p : String) : Bool := p.data.isSuffixOf s.data

/-- Python `needle in hay` (contiguous substring containment). -/
def strContains (hay needle : String) : Bool :=
  (List.range (hay.data.length + 1)).any (fun i => needle.data.isPrefixOf (hay.data.drop i))

/-- Python `s.lstrip("@")`: drop every leading `'@'` character. -/
def lstripAt (s : String) : String := ⟨s.data.dropWhile (· = '@')⟩

/-- Python `s.lower()`, as a character-wise map. -/
def pyLower (s : String) : String := ⟨s.data.map Char.toLower⟩

/-! ### `classify_pdf` (discover_resources.py, lines 57-63) -/

/-- Function `classify_pdf(link_text)`: anchor-text heuristic for the resource subtype. -/
def classify_pdf (link_text : String) : String :=
  let txt := pyLower link_text
  if strContains txt "slide" then "slides"
  else if strContains txt "note" || strContains txt "lecture" then "notes"
  else "unknown"

/-! ### Site crawler (`scrape_ocw_pdfs`, discover_resources.py, lines 65-111)

The network is modelled by a finite site graph: an association list from
page URL to the list of anchors (`href` + link text) on that page.  A URL
absent from the list stands for a page whose fetch/parse raises (the
Python code catches the exception, logs, and abandons that page).  The
`requests.get` call is instrumented by a fetch counter, and the Python
`visited` set is a duplicate-free list (elements are only inserted under
a non-membership guard). -/

structure Anchor where
  href : String
  text : String
deriving DecidableEq, Repr

abbrev Site := List (String × List Anchor)

/-- The fetch: look the URL up in the finite site graph. -/
def lookupPage (site : Site) (url : String) : Option (List Anchor) :=
  (site.find? (fun p => p.1 = url)).map (fun p => p.2)

/-- The URLs the site can answer for. -/
def siteUrls (site : Site) : List String := site.map (fun p => p.1)

/-- A discovered PDF resource, with the fields built at
discover_resources.py lines 86-94 (`discovered_at` is the clock reading,
passed in as `now`). -/
structure Resource where
  url : String
  type : String
  subtype : String
  course_handle : String
  page_url : String
  source : String
  discovered_at : String
deriving DecidableEq, Repr

/-- Crawl state: the `visited` set, the `results` list, and the number of
`requests.get` calls issued. -/
structure CrawlState where
  visited : List String
  results : List Resource
  fetchCount : Nat
deriving DecidableEq, Repr

/-- The resource dict appended for one PDF anchor
(discover_resources.py lines 82-94). -/
def mkPdfResource (course_handle page_url now : String) (a : Anchor) : Resource :=
  { url := if strStartsWith a.href "http" then a.href else "https://ocw.mit.edu" ++ a.href
    type := "pdf"
    subtype := classify_pdf a.text
    course_handle := course_handle
    page_url := page_url
    source := "MIT OCW"
    discovered_at := now }

/-- The first anchor loop (lines 81-94): emit a resource for every anchor
whose href ends in `".pdf"`. -/
def pdfResults (anchors : List Anchor) (course_handle page_url now : String) : List Resource :=
  anchors.filterMap (fun a =>
    if strEndsWith a.href ".pdf" then some (mkPdfResource course_handle page_url now a) else none)

/-- The second anchor loop's filter (lines 97-99): hrefs that start with
`"/courses/"` and contain `"/pages/"`. -/
def subLinks (anchors : List Anchor) : List String :=
  (anchors.filter (fun a => strStartsWith a.href "/courses/" && strContains a.href "/pages/")).map
    (fun a => a.href)

/-- The recursion loop over sub-page links (lines 97-102): prepend the
site origin, recurse (via `step`, the one-level-deeper `scrape_page`)
when the full URL is not yet visited. -/
def scrape_links (step : String → CrawlState → CrawlState) :
    List String → CrawlState → CrawlState
  | [], st => st
  | href :: rest, st =>
    let full_url := "https://ocw.mit.edu" ++ href
    let st' := if full_url ∈ st.visited then st else step full_url st
    scrape_links step rest st'

/-- The function `scrape_page(url)` (lines 71-105).  The Python function
is recursive with no explicit bound; the embedding carries a fuel
argument bounding the recursion depth, and the stabilization theorem
below shows that any fuel beyond a bound determined by the finite site
gives the same result (i.e. the recursion terminates). -/
def scrape_page (site : Site) (course_handle now : String) :
    Nat → String → CrawlState → CrawlState
  | 0, _, st => st
  | Nat.succ fuel, url, st =>
    if url ∈ st.visited then st
    else
      let st1 : CrawlState :=
        { st with visited := url :: st.visited, fetchCount := st.fetchCount + 1 }
      match lookupPage site url with
      | none => st1
      | some anchors =>
        let st2 : CrawlState :=
          { st1 with results := st1.results ++ pdfResults anchors course_handle url now }
        scrape_links (scrape_page site course_handle now fuel) (subLinks anchors) st2

/-- The `base_url` built at line 67. -/
def base_url (course_handle : String) : String :=
  "https://ocw.mit.edu/courses/" ++ course_handle ++ "/"

def initState : CrawlState := ⟨[], [], 0⟩

/-- Fuel that always suffices (proved below): one more than the number of
fetchable pages. -/
def crawlFuel (site : Site) : Nat := (siteUrls site).length + 1

/-- Function `scrape_ocw_pdfs(course_handle)` run to its final crawl state. -/
def scrape_ocw_pdfs_state (site : Site) (course_handle now : String) (fuel : Nat) : CrawlState :=
  scrape_page site course_handle now fuel (base_url course_handle) initState

/-- Function `scrape_ocw_pdfs(course_handle)`: the returned `results` list. -/
def scrape_ocw_pdfs (site : Site) (course_handle now : String) : List Resource :=
  (scrape_ocw_pdfs_state site course_handle now (crawlFuel site)).results

/-! ### Channel resolution (`resolve_channel_id`, discover_resources.py, lines 113-123)

The provider's `channels().list(part="id", forHandle=...)` call is
modelled by a function from the handle to the returned `items` list.
`res['items'][0]` on an empty list raises an (unhandled) IndexError;
fallible indexing is embedded as `Except`. -/

structure ChannelItem where
  id : String
deriving DecidableEq, Repr

/-- The errors channel resolution could surface with: the `IndexError`
that single-item indexing raises on an empty list, and the
`NotFoundError` the specification calls for. -/
inductive ResolveErr where
  | indexError : ResolveErr
  | notFoundError : ResolveErr
deriving DecidableEq, Repr

/-- Function `resolve_channel_id(handle)`: strip leading `@`, issue one lookup,
index the single item.  The code performs `res['items'][0]['id']` with no
emptiness check, so the empty-items case is the raised `IndexError`. -/
def resolve_channel_id (channelsList : String → List ChannelItem) (handle : String) :
    Except ResolveErr String :=
  let handle := lstripAt handle
  let res := channelsList handle
  match res with
  | [] => Except.error ResolveErr.indexError
  | item :: _ => Except.ok item.id

/-! ### Playlist enumeration (`list_all_playlists`, discover_resources.py, lines 125-144)

Each loop iteration builds a request (`channelId`, `maxResults=50`,
`pageToken`) and executes it; the provider is a function from requests to
responses.  The embedding logs the issued requests and carries fuel for
the unbounded `while True` loop. -/

structure Playlist where
  id : String
  title : String
deriving DecidableEq, Repr

structure PlaylistRequest where
  channelId : String
  maxResults : Nat
  pageToken : Option String
deriving DecidableEq, Repr

structure PlaylistResponse where
  items : List Playlist
  nextPageToken : Option String
deriving DecidableEq, Repr

/-- The `while True` pagination loop, accumulating `playlists` and the
log of issued requests. -/
def list_all_playlists_go (execute : PlaylistRequest → PlaylistResponse) (channel_id : String) :
    Nat → Option String → List Playlist → List PlaylistRequest →
    List Playlist × List PlaylistRequest
  | 0, _, playlists, reqs => (playlists, reqs)
  | Nat.succ fuel, next_page_token, playlists, reqs =>
    let req : PlaylistRequest :=
      { channelId := channel_id, maxResults := 50, pageToken := next_page_token }
    let res := execute req
    let playlists := playlists ++ res.items
    let reqs := reqs ++ [req]
    match res.nextPageToken with
    | none => (playlists, reqs)
    | some t => list_all_playlists_go execute channel_id fuel (some t) playlists reqs

/-- Function `list_all_playlists(youtube, channel_id)` together with the request log. -/
def list_all_playlists (execute : PlaylistRequest → PlaylistResponse) (channel_id : String)
    (fuel : Nat) : List Playlist × List PlaylistRequest :=
  list_all_playlists_go execute channel_id fuel none [] []

/-- Continuation tokens are opaque strings to the code under test; the
fixture provider below encodes the page index in the token's length. -/
def natToken (n : Nat) : String := ⟨List.replicate n 'x'⟩

def tokenNat (s : String) : Nat := s.data.length

/-- A provider holding the given pages, chained by continuation tokens:
the request with no token gets page 0, the request with the token
encoding `i` gets page `i`, and the response carries a next token exactly
when a further page exists. -/
def chainExecute (pages : List (List Playlist)) : PlaylistRequest → PlaylistResponse :=
  fun req =>
    let i : Nat := match req.pageToken with
      | none => 0
      | some t => tokenNat t
    { items := pages.getD i []
      nextPageToken := if i + 1 < pages.length then some (natToken (i + 1)) else none }

/-- The requests the pagination loop is expected to issue against a
well-behaved provider delivering `n` pages. -/
def chainRequests (cid : String) (n : Nat) : List PlaylistRequest :=
  (List.range n).map (fun i =>
    { channelId := cid, maxResults := 50,
      pageToken := if i = 0 then none else some (natToken i) })

/-! ### Playlist title matching (`fetch_youtube_playlists_by_title`, lines 157-162)

`found_playlists` is a Python dict keyed by playlist title; dicts are
embedded as association lists with unique keys, insertion at the back and
in-place value replacement. -/

/-- Python `d[k] = v` on a dict (keys are unique): replace the value in
place when the key is present, append at the back otherwise. -/
def dictSet (d : List (String × String)) (k v : String) : List (String × String) :=
  match d with
  | [] => [(k, v)]
  | kv :: rest => if kv.1 = k then (k, v) :: rest else kv :: dictSet rest k v

/-- Python `k in d` for a dict. -/
def hasKey (d : List (String × String)) (k : String) : Bool :=
  d.any (fun kv => kv.1 = k)

/-- The nested matching loops (lines 157-162): for every desired
substring, for every playlist, on a case-insensitive substring hit record
`found_playlists[title] = pl["id"]`. -/
def matchPlaylists (playlist_titles : List String) (all_playlists : List Playlist) :
    List (String × String) :=
  playlist_titles.foldl
    (fun found desired =>
      all_playlists.foldl
        (fun found pl =>
          if strContains (pyLower pl.title) (pyLower desired) then dictSet found pl.title pl.id
          else found)
        found)
    []

/-! ### Ingestion (`run_ingestion`, ingestion.py, lines 118-200)

Discovery-manifest entries are JSON objects; the fields the claims need
are strings or `null`, so values are embedded as `JVal`.  Objects are
association lists with Python-dict update semantics.  The
media-acquisition collaborator (`upload_youtube_audio_with_chapters`) is
a parameter returning either the `(audio_key, chapters_key)` pair or the
raised exception's message. -/

inductive JVal where
  | s : String → JVal
  | nul : JVal
deriving DecidableEq, Repr

abbrev JObj := List (String × JVal)

/-- Python `d[k] = v` on a JSON object (dict keys are unique): replace
the value in place when the key is present, append at the back otherwise. -/
def JObj.set (o : JObj) (k : String) (v : JVal) : JObj :=
  match o with
  | [] => [(k, v)]
  | kv :: rest => if kv.1 = k then (k, v) :: rest else kv :: JObj.set rest k v

/-- Python `d.update(kvs)`. -/
def JObj.update (o : JObj) (kvs : List (String × JVal)) : JObj :=
  kvs.foldl (fun o kv => JObj.set o kv.1 kv.2) o

/-- Python `d[k]` lookup (`none` models the raised `KeyError`). -/
def JObj.get (o : JObj) (k : String) : Option JVal :=
  match o with
  | [] => none
  | kv :: rest => if kv.1 = k then some kv.2 else JObj.get rest k

def JVal.ofOpt : Option String → JVal
  | none => JVal.nul
  | some v => JVal.s v

/-- The body of the `for r in resources` loop (ingestion.py lines
141-171) for one resource: `none` means the item is dropped from
`processed` (the `continue` on `type == "pdf"`), `some rec` is the record
appended.  The `try`/`except` around the body is embedded by the
`Except`-valued collaborator and by the failure records for the
`KeyError`s a malformed resource dict raises. -/
def processResource (uploader : String → Except String (String × Option String))
    (now : String) (r : JObj) : Option JObj :=
  match r.get "type" with
  | none =>
    -- `r["type"]` raised KeyError('type'); caught at line 168
    some (r.update [("status", JVal.s "failed"), ("reason", JVal.s "'type'")])
  | some t =>
    if t = JVal.s "pdf" then
      none  -- line 145: `continue` — no record is appended
    else if t = JVal.s "video" then
      match r.get "url" with
      | some (JVal.s url) =>
        match uploader url with
        | Except.ok (audio_key, chapters_key) =>
          if audio_key ≠ "" then
            some (r.update
              [("s3_key", JVal.s audio_key), ("chapters_key", JVal.ofOpt chapters_key),
               ("uploaded_at", JVal.s now), ("status", JVal.s "success")])
          else
            some (r.update [("status", JVal.s "failed"), ("reason", JVal.s "upload returned None")])
        | Except.error e =>
          some (r.update [("status", JVal.s "failed"), ("reason", JVal.s e)])
      | some JVal.nul =>
        -- `None.split` raised AttributeError; caught at line 168
        some (r.update [("status", JVal.s "failed"),
          ("reason", JVal.s "'NoneType' object has no attribute 'split'")])
      | none =>
        -- `r["url"]` raised KeyError('url'); caught at line 168
        some (r.update [("status", JVal.s "failed"), ("reason", JVal.s "'url'")])
    else
      some (r.update [("status", JVal.s "skipped"), ("reason", JVal.s "unknown type")])

/-- The aggregate job record persisted at ingestion.py lines 176-183
(`job_id` and wall-clock fields are environment-generated and carried as
the `now` parameter where they matter). -/
structure IngestionMeta where
  num_total : Nat
  num_success : Nat
  num_failed : Nat
  resources : List JObj
deriving DecidableEq, Repr

def statusIs (v : String) (r : JObj) : Bool :=
  r.get "status" = some (JVal.s v)

/-- Function `run_ingestion` on an already-loaded manifest: process every entry,
then derive the counts (`num_total` from the manifest length,
`num_success`/`num_failed` by counting `processed` by status). -/
def run_ingestion (uploader : String → Except String (String × Option String))
    (now : String) (resources : List JObj) : IngestionMeta :=
  let processed := resources.filterMap (processResource uploader now)
  { num_total := resources.length
    num_success := (processed.filter (statusIs "success")).length
    num_failed := (processed.filter (statusIs "failed")).length
    resources := processed }

/-! ### Concrete fixtures (used by witnesses and counterexamples) -/

/-- A small site graph for the course `"c1"`: the seed page links to
sub-page `b`; `b` and `c` link to each other (a cycle), `b` also links to
a sub-page of a different course `"c2"` and carries PDF anchors. -/
def exSite : Site :=
  [(base_url "c1",
    [⟨"/courses/c1/pages/b/", "go to b"⟩, ⟨"/resources/slides1.pdf", "Lecture Slides"⟩]),
   ("https://ocw.mit.edu/courses/c1/pages/b/",
    [⟨"/courses/c1/pages/c/", "go to c"⟩, ⟨"/courses/c2/pages/x/", "other course"⟩,
     ⟨"http://x.org/n.pdf", "Notes"⟩, ⟨"/z.PDF", "uppercase extension"⟩]),
   ("https://ocw.mit.edu/courses/c1/pages/c/",
    [⟨"/courses/c1/pages/b/", "back to b"⟩]),
   ("https://ocw.mit.edu/courses/c2/pages/x/", [])]

def pls3 : List Playlist :=
  [⟨"i1", "Lecture Videos"⟩, ⟨"i2", "Recitation Videos"⟩, ⟨"i3", "Exam Review"⟩]

/-- 120 playlists delivered in pages of 50, 50 and 20. -/
def pages120 : List (List Playlist) :=
  [List.replicate 50 ⟨"p", "t"⟩, List.replicate 50 ⟨"p", "t"⟩, List.replicate 20 ⟨"p", "t"⟩]

/-- A video manifest entry. -/
def vidRes (u : String) : JObj := [("url", JVal.s u), ("type", JVal.s "video")]

/-- A PDF manifest entry. -/
def pdfSample : JObj := [("url", JVal.s "https://ocw.mit.edu/resources/slides1.pdf"),
  ("type", JVal.s "pdf"), ("subtype", JVal.s "slides")]

/-- A media-acquisition collaborator that succeeds everywhere. -/
def upOk : String → Except String (String × Option String) :=
  fun u => Except.ok ("audio/" ++ u ++ ".m4a", some ("audio/" ++ u ++ "_chapters.json"))

/-- A media-acquisition collaborator that raises exactly on `"u3"`. -/
def up1 : String → Except String (String × Option String) :=
  fun u => if u = "u3" then Except.error "DownloadError: failed" else upOk u

/-- A manifest of five video resources; item 3 is the one `up1` fails on. -/
def fiveVids : List JObj :=
  [vidRes "u1", vidRes "u2", vidRes "u3", vidRes "u4", vidRes "u5"]

/-! ## Helper lemmas -/

/-- The `visited` set only ever grows along the link loop. -/
theorem visited_subset_scrape_links (step : String → CrawlState → CrawlState)
    (hstep : ∀ u s, s.visited ⊆ (step u s).visited) :
    ∀ (links : List String) (st : CrawlState), st.visited ⊆ (scrape_links step links st).visited := by
  intro links
  induction links with
  | nil => intro st; simp [scrape_links]
  | cons href rest ih =>
    intro st
    simp only [scrape_links]
    by_cases h : ("https://ocw.mit.edu" ++ href) ∈ st.visited
    · simpa [h] using ih st
    · simp only [h, if_neg, ite_false]
      exact (hstep _ _).trans (ih _)

/-- The `visited` set only ever grows along `scrape_page`. -/
theorem visited_subset_scrape_page (site : Site) (c n : String) :
    ∀ (fuel : Nat) (url : String) (st : CrawlState),
      st.visited ⊆ (scrape_page site c n fuel url st).visited := by
  intro fuel
  induction fuel with
  | zero => intro url st; simp [scrape_page]
  | succ fuel ih =>
    intro url st
    simp only [scrape_page]
    by_cases hv : url ∈ st.visited
    · simp [hv]
    · simp only [hv, ite_false]
      cases hlook : lookupPage site url with
      | none => simp [hlook, List.subset_cons_self]
      | some anchors =>
        simp only [hlook]
        apply List.Subset.trans (List.subset_cons_self url st.visited)
        exact visited_subset_scrape_links _ (fun u s => ih u s) (subLinks anchors)
          ⟨url :: st.visited, st.results ++ pdfResults anchors c url n, st.fetchCount + 1⟩

/-- The crawler invariant: every issued fetch corresponds to exactly one
new entry of the duplicate-free `visited` set. -/
def countInv (st : CrawlState) : Prop :=
  st.fetchCount = st.visited.length ∧ st.visited.Nodup

theorem countInv_scrape_links (step : String → CrawlState → CrawlState)
    (hstep : ∀ u s, countInv s → countInv (step u s)) :
    ∀ (links : List String) (st : CrawlState), countInv st → countInv (scrape_links step links st) := by
  intro links
  induction links with
  | nil => intro st h; simpa [scrape_links] using h
  | cons href rest ih =>
    intro st h
    simp only [scrape_links]
    by_cases hv : ("https://ocw.mit.edu" ++ href) ∈ st.visited
    · simpa [hv] using ih st h
    · simp only [hv, ite_false]
      exact ih _ (hstep _ _ h)

theorem countInv_scrape_page (site : Site) (c n : String) :
    ∀ (fuel : Nat) (url : String) (st : CrawlState),
      countInv st → countInv (scrape_page site c n fuel url st) := by
  intro fuel
  induction fuel with
  | zero => intro url st h; simpa [scrape_page] using h
  | succ fuel ih =>
    intro url st h
    simp only [scrape_page]
    by_cases hv : url ∈ st.visited
    · simpa [hv] using h
    · simp only [hv, ite_false]
      have h1 : countInv { st with visited := url :: st.visited, fetchCount := st.fetchCount + 1 } :=
        ⟨by simp [h.1], List.Nodup.cons hv h.2⟩
      cases hlook : lookupPage site url with
      | none => simpa [hlook] using h1
      | some anchors =>
        simp only [hlook]
        exact countInv_scrape_links _ (fun u s => ih u s) _ _ h1

/-! ### Generic list counting lemmas -/

theorem length_filter_mono {α : Type} (l : List α) (p q : α → Bool)
    (himp : ∀ a, q a = true → p a = true) :
    (l.filter q).length ≤ (l.filter p).length := by
  induction l with
  | nil => simp
  | cons a t ih =>
    by_cases hq : q a = true
    · simp [hq, himp a hq]; omega
    · rw [List.filter_cons_of_neg (by simpa using hq)]
      by_cases hp : p a = true
      · rw [List.filter_cons_of_pos hp]; simp; omega
      · rw [List.filter_cons_of_neg (by simpa using hp)]; exact ih

theorem length_filter_lt {α : Type} (l : List α) (p q : α → Bool)
    (himp : ∀ a, q a = true → p a = true) :
    ∀ x ∈ l, p x = true → q x = false → (l.filter q).length < (l.filter p).length := by
  induction l with
  | nil => intro x hx; simp at hx
  | cons a t ih =>
    intro x hx hpx hqx
    rcases List.mem_cons.mp hx with rfl | hxt
    · rw [List.filter_cons_of_pos hpx, List.filter_cons_of_neg (by simp [hqx])]
      simp
      exact Nat.lt_succ_of_le (length_filter_mono t p q himp)
    · by_cases hq : q a = true
      · rw [List.filter_cons_of_pos hq, List.filter_cons_of_pos (himp a hq)]
        simpa using ih x hxt hpx hqx
      · rw [List.filter_cons_of_neg (by simpa using hq)]
        by_cases hp : p a = true
        · rw [List.filter_cons_of_pos hp]
          exact Nat.lt_succ_of_lt (ih x hxt hpx hqx)
        · rw [List.filter_cons_of_neg (by simpa using hp)]
          exact ih x hxt hpx hqx

/-! ### The crawl measure and its lemmas -/

/-- How many fetchable pages are not yet visited. -/
def countUnvisited (urls visited : List String) : Nat :=
  (urls.filter (fun u => decide (u ∉ visited))).length

def unvisitedCount (site : Site) (st : CrawlState) : Nat :=
  countUnvisited (siteUrls site) st.visited

theorem countUnvisited_cons_lt (urls visited : List String) (url : String)
    (hmem : url ∈ urls) (hnv : url ∉ visited) :
    countUnvisited urls (url :: visited) < countUnvisited urls visited := by
  apply length_filter_lt urls _ _ _ url hmem
  · simp [hnv]
  · simp
  · intro a ha
    simp at ha
    simp [ha.2]

theorem countUnvisited_anti (urls visited visited' : List String)
    (h : visited ⊆ visited') :
    countUnvisited urls visited' ≤ countUnvisited urls visited := by
  apply length_filter_mono
  intro a ha
  simp at ha ⊢
  intro hmem
  exact ha (h hmem)

theorem mem_siteUrls_of_lookupPage (site : Site) (url : String) (anchors : List Anchor)
    (h : lookupPage site url = some anchors) : url ∈ siteUrls site := by
  unfold lookupPage at h
  cases hfind : site.find? (fun p => p.1 = url) with
  | none => rw [hfind] at h; simp at h
  | some pr =>
    have hmem := List.mem_of_find?_eq_some hfind
    have hph := List.find?_some hfind
    simp at hph
    rw [← hph]
    exact List.mem_map_of_mem (fun p => p.1) hmem

/-! ### Stabilization of the fuel-indexed crawl -/

theorem scrape_stable (site : Site) (c n : String) :
    ∀ mm : Nat,
      (∀ st : CrawlState, unvisitedCount site st ≤ mm →
        ∀ (url : String) (f₁ f₂ : Nat), unvisitedCount site st < f₁ → unvisitedCount site st < f₂ →
          scrape_page site c n f₁ url st = scrape_page site c n f₂ url st)
      ∧ (∀ (links : List String) (st : CrawlState), unvisitedCount site st ≤ mm →
        ∀ (f₁ f₂ : Nat), unvisitedCount site st < f₁ → unvisitedCount site st < f₂ →
          scrape_links (scrape_page site c n f₁) links st
            = scrape_links (scrape_page site c n f₂) links st) := by
  intro mm
  induction mm using Nat.strong_induction_on with
  | _ mm ih =>
    have hS : ∀ st : CrawlState, unvisitedCount site st ≤ mm →
        ∀ (url : String) (f₁ f₂ : Nat), unvisitedCount site st < f₁ → unvisitedCount site st < f₂ →
          scrape_page site c n f₁ url st = scrape_page site c n f₂ url st := by
      intro st hle url f₁ f₂ h1 h2
      obtain ⟨g₁, rfl⟩ : ∃ g, f₁ = Nat.succ g := ⟨f₁ - 1, by omega⟩
      obtain ⟨g₂, rfl⟩ : ∃ g, f₂ = Nat.succ g := ⟨f₂ - 1, by omega⟩
      simp only [scrape_page]
      by_cases hv : url ∈ st.visited
      · simp [hv]
      · simp only [hv, ite_false]
        cases hlook : lookupPage site url with
        | none => rfl
        | some anchors =>
          simp only
          have hmem : url ∈ siteUrls site := mem_siteUrls_of_lookupPage site url anchors hlook
          have hlt : countUnvisited (siteUrls site) (url :: st.visited)
              < countUnvisited (siteUrls site) st.visited :=
            countUnvisited_cons_lt _ _ _ hmem hv
          have hrec := (ih (countUnvisited (siteUrls site) (url :: st.visited))
            (by unfold unvisitedCount at hle; omega)).2 (subLinks anchors)
            ⟨url :: st.visited, st.results ++ pdfResults anchors c url n, st.fetchCount + 1⟩
            (le_refl _) g₁ g₂
            (by unfold unvisitedCount at h1 ⊢; simp only; omega)
            (by unfold unvisitedCount at h2 ⊢; simp only; omega)
          exact hrec
    refine ⟨hS, ?_⟩
    intro links
    induction links with
    | nil => intro st _ f₁ f₂ _ _; simp [scrape_links]
    | cons href rest ihl =>
      intro st hle f₁ f₂ h1 h2
      simp only [scrape_links]
      by_cases hv : ("https://ocw.mit.edu" ++ href) ∈ st.visited
      · simp only [hv, ite_true]
        exact ihl st hle f₁ f₂ h1 h2
      · simp only [hv, ite_false]
        have hstep := hS st hle ("https://ocw.mit.edu" ++ href) f₁ f₂ h1 h2
        rw [hstep]
        have hsub : st.visited ⊆
            (scrape_page site c n f₂ ("https://ocw.mit.edu" ++ href) st).visited :=
          visited_subset_scrape_page site c n f₂ _ st
        have hanti : unvisitedCount site (scrape_page site c n f₂ ("https://ocw.mit.edu" ++ href) st)
            ≤ unvisitedCount site st :=
          countUnvisited_anti _ _ _ hsub
        exact ihl _ (by omega) f₁ f₂ (by omega) (by omega)

/-! ### Provenance of visited URLs -/

/-- The URLs the crawl may ever visit: the seed, or the origin-prefixed
form of a link passing the line-99 filter (any course). -/
def goodUrl (course u : String) : Prop :=
  u = base_url course ∨ ∃ href, u = "https://ocw.mit.edu" ++ href ∧
    strStartsWith href "/courses/" = true ∧ strContains href "/pages/" = true

theorem mem_subLinks (anchors : List Anchor) (href : String) (h : href ∈ subLinks anchors) :
    strStartsWith href "/courses/" = true ∧ strContains href "/pages/" = true := by
  unfold subLinks at h
  simp [List.mem_map, List.mem_filter] at h
  obtain ⟨a, ⟨_, hcond⟩, rfl⟩ := h
  exact hcond

theorem goodUrl_scrape_links (course : String) (step : String → CrawlState → CrawlState)
    (hstep : ∀ u s, (∀ x ∈ s.visited, goodUrl course x) → goodUrl course u →
      ∀ x ∈ (step u s).visited, goodUrl course x) :
    ∀ (links : List String) (st : CrawlState),
      (∀ href ∈ links, strStartsWith href "/courses/" = true ∧ strContains href "/pages/" = true) →
      (∀ x ∈ st.visited, goodUrl course x) →
      ∀ x ∈ (scrape_links step links st).visited, goodUrl course x := by
  intro links
  induction links with
  | nil => intro st _ hst; simpa [scrape_links] using hst
  | cons href rest ih =>
    intro st hlinks hst
    simp only [scrape_links]
    by_cases hv : ("https://ocw.mit.edu" ++ href) ∈ st.visited
    · simp only [hv, ite_true]
      exact ih st (fun h hm => hlinks h (List.mem_cons_of_mem _ hm)) hst
    · simp only [hv, ite_false]
      apply ih _ (fun h hm => hlinks h (List.mem_cons_of_mem _ hm))
      apply hstep _ _ hst
      exact Or.inr ⟨href, rfl, (hlinks href (List.mem_cons_self _ _)).1,
        (hlinks href (List.mem_cons_self _ _)).2⟩

theorem goodUrl_scrape_page (site : Site) (course n : String) :
    ∀ (fuel : Nat) (url : String) (st : CrawlState),
      (∀ x ∈ st.visited, goodUrl course x) → goodUrl course url →
      ∀ x ∈ (scrape_page site course n fuel url st).visited, goodUrl course x := by
  intro fuel
  induction fuel with
  | zero => intro url st hst _; simpa [scrape_page] using hst
  | succ fuel ih =>
    intro url st hst hurl
    simp only [scrape_page]
    by_cases hv : url ∈ st.visited
    · simpa [hv] using hst
    · simp only [hv, ite_false]
      have hst1 : ∀ x ∈ url :: st.visited, goodUrl course x := by
        intro x hx
        rcases List.mem_cons.mp hx with rfl | hxv
        · exact hurl
        · exact hst x hxv
      cases hlook : lookupPage site url with
      | none => simpa using hst1
      | some anchors =>
        simp only
        apply goodUrl_scrape_links course _ (fun u s => ih u s) (subLinks anchors)
          ⟨url :: st.visited, st.results ++ pdfResults anchors course url n, st.fetchCount + 1⟩
          (fun href hm => mem_subLinks anchors href hm)
        exact hst1

/-! ## Claim theorems -/

/-- C4: for every crawl run over any site graph, no page URL is fetched
more than once: the number of fetch calls issued equals the size of the
visited set at the end of the crawl (the visited list is duplicate-free,
so its length is the set's size). -/
theorem c4_no_url_fetched_twice (site : Site) (course now : String) (fuel : Nat) :
    (scrape_ocw_pdfs_state site course now fuel).fetchCount
      = (scrape_ocw_pdfs_state site course now fuel).visited.length
    ∧ (scrape_ocw_pdfs_state site course now fuel).visited.Nodup :=
  countInv_scrape_page site course now fuel (base_url course) initState ⟨rfl, List.nodup_nil⟩

/-- C5: for every finite site graph, cyclic ones included, the crawl
terminates: the fuel-indexed embedding of the unbounded recursion
computes the same final state for every fuel of at least `crawlFuel site`
(one more than the number of fetchable pages), so the recursion needs
only finitely many nested calls and the crawl result is well defined. -/
theorem c5_crawl_terminates (site : Site) (course now : String) (f₁ f₂ : Nat)
    (h₁ : crawlFuel site ≤ f₁) (h₂ : crawlFuel site ≤ f₂) :
    scrape_ocw_pdfs_state site course now f₁ = scrape_ocw_pdfs_state site course now f₂ := by
  have h0 : unvisitedCount site initState ≤ (siteUrls site).length :=
    List.length_filter_le _ _
  unfold crawlFuel at h₁ h₂
  exact (scrape_stable site course now (unvisitedCount site initState)).1 initState
    (le_refl _) (base_url course) f₁ f₂ (by omega) (by omega)

/-- Witness for C5 on the fixture site, whose followed-link graph has the
cycle `pages/b ↔ pages/c`. -/
theorem c5_crawl_terminates_witness :
    crawlFuel exSite ≤ 5 ∧ crawlFuel exSite ≤ 9 ∧
      scrape_ocw_pdfs_state exSite "c1" "t" 5 = scrape_ocw_pdfs_state exSite "c1" "t" 9 :=
  ⟨by decide, by decide, c5_crawl_terminates exSite "c1" "t" 5 9 (by decide) (by decide)⟩

/-- C8 counterexample: the claim says a linked page is recursively
visited only if it is a sub-page of the same course as the seed; on this
site the seed course is `"c1"`, yet the crawl visits the page linked via
`"/courses/c2/pages/x/"`, which is not a sub-page path of course `"c1"`
(and not the seed page). -/
theorem c8_counterexample :
    "https://ocw.mit.edu/courses/c2/pages/x/"
        ∈ (scrape_ocw_pdfs_state exSite "c1" "t" (crawlFuel exSite)).visited
      ∧ strStartsWith "/courses/c2/pages/x/" ("/courses/" ++ "c1" ++ "/") = false
      ∧ "https://ocw.mit.edu/courses/c2/pages/x/" ≠ base_url "c1" := by
  refine ⟨by decide, by decide, by decide⟩

/-- C8 (amended): for every crawl, a URL is visited only if it is the
seed page or the origin-prefixed form of a link whose href starts with
`"/courses/"` and contains `"/pages/"` — the course component is not
checked, so sub-pages of other courses are followed as well. -/
theorem c8_visited_only_subpage_pattern (site : Site) (course now : String) (fuel : Nat) :
    ∀ u ∈ (scrape_ocw_pdfs_state site course now fuel).visited,
      u = base_url course ∨ ∃ href, u = "https://ocw.mit.edu" ++ href ∧
        strStartsWith href "/courses/" = true ∧ strContains href "/pages/" = true := by
  intro u hu
  exact goodUrl_scrape_page site course now fuel (base_url course) initState
    (by intro x hx; simp [initState] at hx) (Or.inl rfl) u hu

/-- Witness for the amended C8: the visited sub-page `b` of the fixture
crawl is the origin-prefixed form of a matching link. -/
theorem c8_visited_only_subpage_pattern_witness :
    "https://ocw.mit.edu/courses/c1/pages/b/" = base_url "c1"
      ∨ ∃ href, "https://ocw.mit.edu/courses/c1/pages/b/" = "https://ocw.mit.edu" ++ href ∧
        strStartsWith href "/courses/" = true ∧ strContains href "/pages/" = true :=
  c8_visited_only_subpage_pattern exSite "c1" "t" (crawlFuel exSite)
    "https://ocw.mit.edu/courses/c1/pages/b/" (by decide)

/-- The origin-prefixed form of any href starts with `"http"`. -/
theorem strStartsWith_origin_http (href : String) :
    strStartsWith ("https://ocw.mit.edu" ++ href) "http" = true := by
  unfold strStartsWith
  rw [List.isPrefixOf_iff_prefix]
  have hdata : ("https://ocw.mit.edu" ++ href).data
      = "https://ocw.mit.edu".data ++ href.data := String.data_append _ _
  rw [hdata]
  have h4 : "https://ocw.mit.edu".data = "http".data ++ "s://ocw.mit.edu".data := by decide
  rw [h4, List.append_assoc]
  exact List.prefix_append _ _

/-- C9: an anchor of a crawled page is emitted as a Resource iff its href
ends in the exact lowercase string `".pdf"`; every emitted Resource has
type `"pdf"` and a URL starting with `"http"` (site-relative hrefs get
the site origin prepended); an href ending in `".PDF"` is not emitted. -/
theorem c9_pdf_anchor_emission (anchors : List Anchor) (course page now : String) :
    (∀ r : Resource, r ∈ pdfResults anchors course page now
        ↔ ∃ a ∈ anchors, strEndsWith a.href ".pdf" = true ∧ r = mkPdfResource course page now a)
    ∧ (∀ r ∈ pdfResults anchors course page now,
        r.type = "pdf" ∧ strStartsWith r.url "http" = true
          ∧ ∃ a ∈ anchors, r = mkPdfResource course page now a
            ∧ (strStartsWith a.href "http" = false → r.url = "https://ocw.mit.edu" ++ a.href))
    ∧ pdfResults [⟨"/z.PDF", "uppercase extension"⟩] course page now = [] := by
  have hmem : ∀ r : Resource, r ∈ pdfResults anchors course page now
      ↔ ∃ a ∈ anchors, strEndsWith a.href ".pdf" = true ∧ r = mkPdfResource course page now a := by
    intro r
    unfold pdfResults
    rw [List.mem_filterMap]
    constructor
    · rintro ⟨a, ha, hf⟩
      by_cases hend : strEndsWith a.href ".pdf" = true
      · rw [if_pos hend] at hf
        exact ⟨a, ha, hend, (Option.some_inj.mp hf).symm⟩
      · rw [if_neg hend] at hf
        exact absurd hf (by simp)
    · rintro ⟨a, ha, hend, rfl⟩
      exact ⟨a, ha, by rw [if_pos hend]⟩
  refine ⟨hmem, ?_, ?_⟩
  · intro r hr
    obtain ⟨a, ha, _, rfl⟩ := (hmem r).mp hr
    refine ⟨rfl, ?_, a, ha, rfl, ?_⟩
    · unfold mkPdfResource
      by_cases hstart : strStartsWith a.href "http" = true
      · simp [hstart]
      · simp only [hstart, ite_false]
        exact strStartsWith_origin_http a.href
    · intro hfalse
      unfold mkPdfResource
      simp [hfalse]
  · have h : strEndsWith "/z.PDF" ".pdf" = false := by decide
    simp [pdfResults, h]

/-- Witness for C9 on a concrete anchor list: the relative `.pdf` link is
emitted with type `"pdf"` and an absolute URL, and the `.PDF` link is not. -/
theorem c9_pdf_anchor_emission_witness :
    mkPdfResource "c1" "p" "t" ⟨"/resources/slides1.pdf", "Lecture Slides"⟩
        ∈ pdfResults [⟨"/resources/slides1.pdf", "Lecture Slides"⟩, ⟨"/z.PDF", "zz"⟩] "c1" "p" "t"
      ∧ (mkPdfResource "c1" "p" "t" ⟨"/resources/slides1.pdf", "Lecture Slides"⟩).type = "pdf" :=
  ⟨((c9_pdf_anchor_emission [⟨"/resources/slides1.pdf", "Lecture Slides"⟩, ⟨"/z.PDF", "zz"⟩]
      "c1" "p" "t").1 _).mpr ⟨_, by decide, by decide, rfl⟩, rfl⟩

/-- C1 evidence: when the provider's channel lookup returns zero items,
the code raises the `IndexError` of `res['items'][0]` — there is no
explicitly handled `NotFoundError` path. -/
theorem c1_zero_items_raises_index_error (channelsList : String → List ChannelItem)
    (handle : String) (h : channelsList (lstripAt handle) = []) :
    resolve_channel_id channelsList handle = Except.error ResolveErr.indexError
    ∧ resolve_channel_id channelsList handle ≠ Except.error ResolveErr.notFoundError := by
  simp [resolve_channel_id, h]

/-- Witness for C1's evidence theorem at a concrete empty-result provider. -/
theorem c1_zero_items_raises_index_error_witness :
    resolve_channel_id (fun _ => []) "@nosuchchannel" = Except.error ResolveErr.indexError
    ∧ resolve_channel_id (fun _ => []) "@nosuchchannel" ≠ Except.error ResolveErr.notFoundError :=
  c1_zero_items_raises_index_error (fun _ => []) "@nosuchchannel" rfl

theorem tokenNat_natToken (n : Nat) : tokenNat (natToken n) = n := by
  simp [tokenNat, natToken]

/-- One pass of the pagination loop against the chained provider,
starting at page `k`. -/
theorem chain_go (pages : List (List Playlist)) (cid : String) :
    ∀ (fuel k : Nat) (acc : List Playlist) (reqs : List PlaylistRequest),
      k < pages.length → pages.length - k ≤ fuel →
      list_all_playlists_go (chainExecute pages) cid fuel
          (if k = 0 then none else some (natToken k)) acc reqs
        = (acc ++ (pages.drop k).flatten,
           reqs ++ (List.range (pages.length - k)).map (fun j =>
             { channelId := cid, maxResults := 50,
               pageToken := if k + j = 0 then none else some (natToken (k + j)) })) := by
  intro fuel
  induction fuel with
  | zero => intro k acc reqs hk hfuel; omega
  | succ fuel ih =>
    intro k acc reqs hk _
    have hidx : (match (if k = 0 then none else some (natToken k)) with
        | none => 0
        | some t => tokenNat t) = k := by
      by_cases h0 : k = 0
      · simp [h0]
      · simp [h0, tokenNat_natToken]
    simp only [list_all_playlists_go, chainExecute, hidx]
    have hgetD : pages.getD k [] = pages[k] := List.getD_eq_getElem pages [] hk
    have hdrop : pages.drop k = pages[k] :: pages.drop (k + 1) := List.drop_eq_getElem_cons hk
    by_cases hnext : k + 1 < pages.length
    · simp only [hnext, if_pos, ite_true]
      rw [show (some (natToken (k + 1)) : Option String)
            = if k + 1 = 0 then none else some (natToken (k + 1)) from by simp]
      rw [ih (k + 1) (acc ++ pages.getD k []) _ hnext (by omega)]
      simp only [Prod.mk.injEq]
      refine ⟨?_, ?_⟩
      · rw [hgetD, hdrop, List.flatten_cons, List.append_assoc]
      · rw [List.append_assoc]
        congr 1
        have hn : pages.length - k = (pages.length - (k + 1)) + 1 := by omega
        rw [hn, List.range_succ_eq_map, List.map_cons, List.map_map]
        simp only [List.singleton_append, List.cons.injEq]
        refine ⟨by simp, ?_⟩
        apply List.map_congr_left
        intro j hj
        have hkj : k + 1 + j = k + (j + 1) := by omega
        simp [Function.comp_apply, Nat.succ_eq_add_one, hkj]
    · simp only [hnext, ite_false]
      have hlast : pages.length - k = 1 := by omega
      simp only [Prod.mk.injEq]
      refine ⟨?_, ?_⟩
      · rw [hgetD, hdrop]
        have hnil : pages.drop (k + 1) = [] := List.drop_eq_nil_of_le (by omega)
        simp [hnil]
      · rw [hlast]
        rw [show List.range 1 = [0] from rfl]
        simp

/-- C6: against a provider delivering its playlists in token-chained
pages, the enumerator issues one request per page — each with
`maxResults = 50` and the provider's continuation token — and returns
the concatenation of all pages; with 120 playlists in pages of 50/50/20
exactly 3 requests are made and 120 playlists returned; an empty first
page yields an empty list, not an error. -/
theorem c6_paginates_all_playlists (cid : String) (pages : List (List Playlist)) (fuel : Nat)
    (hfuel : max pages.length 1 ≤ fuel) :
    (list_all_playlists (chainExecute pages) cid fuel).1 = pages.flatten
    ∧ (list_all_playlists (chainExecute pages) cid fuel).2
        = chainRequests cid (max pages.length 1)
    ∧ (∀ req ∈ (list_all_playlists (chainExecute pages) cid fuel).2,
        req.maxResults = 50 ∧ req.channelId = cid)
    ∧ (list_all_playlists (chainExecute pages120) cid 3).1.length = 120
    ∧ (list_all_playlists (chainExecute pages120) cid 3).2.length = 3
    ∧ list_all_playlists (chainExecute []) cid 1
        = ([], [{ channelId := cid, maxResults := 50, pageToken := none }]) := by
  have hmain : (list_all_playlists (chainExecute pages) cid fuel).1 = pages.flatten
      ∧ (list_all_playlists (chainExecute pages) cid fuel).2
        = chainRequests cid (max pages.length 1) := by
    rcases Nat.eq_zero_or_pos pages.length with hlen | hlen
    · have hpages : pages = [] := List.length_eq_zero.mp hlen
      subst hpages
      obtain ⟨g, rfl⟩ : ∃ g, fuel = Nat.succ g := ⟨fuel - 1, by simp at hfuel; omega⟩
      constructor <;> rfl
    · have h0 : (0 : Nat) < pages.length := hlen
      have hmax : max pages.length 1 = pages.length := by omega
      have := chain_go pages cid fuel 0 [] [] h0 (by omega)
      simp only [ite_true, List.drop_zero, List.nil_append, Nat.sub_zero] at this
      unfold list_all_playlists
      rw [this]
      refine ⟨rfl, ?_⟩
      rw [hmax]
      unfold chainRequests
      apply List.map_congr_left
      intro j _
      simp
  refine ⟨hmain.1, hmain.2, ?_, by rfl, by rfl, by rfl⟩
  intro req hreq
  rw [hmain.2] at hreq
  unfold chainRequests at hreq
  obtain ⟨i, _, rfl⟩ := List.mem_map.mp hreq
  exact ⟨rfl, rfl⟩

/-- Witness for C6 at the 120-playlist fixture. -/
theorem c6_paginates_all_playlists_witness :
    (list_all_playlists (chainExecute pages120) "ch" 3).1 = pages120.flatten :=
  (c6_paginates_all_playlists "ch" pages120 3 (by decide)).1

/-! ### Dict lemmas for the playlist matcher -/

theorem hasKey_iff_mem (d : List (String × String)) (t : String) :
    hasKey d t = true ↔ t ∈ d.map (fun kv => kv.1) := by
  simp [hasKey, List.any_eq_true, List.mem_map]

theorem hasKey_dictSet (d : List (String × String)) (k v t : String) :
    hasKey (dictSet d k v) t = (decide (k = t) || hasKey d t) := by
  induction d with
  | nil => simp [dictSet, hasKey]
  | cons kv rest ih =>
    by_cases hk : kv.1 = k
    · simp only [dictSet, hk, ite_true]
      by_cases ht : k = t <;> simp [hasKey, hk, ht]
    · simp only [dictSet, hk, ite_false]
      simp only [hasKey, List.any_cons] at ih ⊢
      rw [ih]
      cases decide (k = t) <;> cases decide (kv.1 = t) <;> simp

theorem keys_dictSet (d : List (String × String)) (k v : String) :
    (dictSet d k v).map (fun kv => kv.1)
      = if hasKey d k then d.map (fun kv => kv.1) else d.map (fun kv => kv.1) ++ [k] := by
  induction d with
  | nil => simp [dictSet, hasKey]
  | cons kv rest ih =>
    by_cases hk : kv.1 = k
    · simp [dictSet, hasKey, hk]
    · simp only [dictSet, hk, ite_false, List.map_cons, ih]
      have hck : hasKey (kv :: rest) k = hasKey rest k := by simp [hasKey, hk]
      rw [hck]
      by_cases hrk : hasKey rest k = true <;> simp [hrk]

theorem nodupKeys_dictSet (d : List (String × String)) (k v : String)
    (h : (d.map (fun kv => kv.1)).Nodup) :
    ((dictSet d k v).map (fun kv => kv.1)).Nodup := by
  rw [keys_dictSet]
  by_cases hk : hasKey d k = true
  · simp [hk, h]
  · simp only [hk, ite_false, Bool.false_eq_true]
    rw [List.nodup_append]
    refine ⟨h, List.nodup_singleton k, ?_⟩
    intro a ha hb
    simp at hb
    subst hb
    exact hk ((hasKey_iff_mem d a).mpr ha)

/-- Key membership after the inner playlist scan for one desired substring. -/
theorem hasKey_inner_scan (desired : String) (pls : List Playlist) :
    ∀ (found : List (String × String)) (t : String),
      hasKey (pls.foldl (fun found pl =>
          if strContains (pyLower pl.title) (pyLower desired) then dictSet found pl.title pl.id
          else found) found) t
        = (hasKey found t || pls.any (fun pl =>
            decide (pl.title = t) && strContains (pyLower pl.title) (pyLower desired))) := by
  induction pls with
  | nil => intro found t; simp
  | cons pl rest ih =>
    intro found t
    simp only [List.foldl_cons, List.any_cons]
    rw [ih]
    by_cases hc : strContains (pyLower pl.title) (pyLower desired) = true
    · simp only [hc, ite_true, hasKey_dictSet, Bool.and_true]
      cases decide (pl.title = t) <;> cases hasKey found t <;> simp
    · simp only [hc, ite_false, Bool.false_eq_true, Bool.and_false, Bool.false_or]

/-- Key membership in the full matching pass. -/
theorem hasKey_matchPlaylists (playlist_titles : List String) (pls : List Playlist) (t : String) :
    hasKey (matchPlaylists playlist_titles pls) t
      = playlist_titles.any (fun d => pls.any (fun pl =>
          decide (pl.title = t) && strContains (pyLower pl.title) (pyLower d))) := by
  unfold matchPlaylists
  suffices h : ∀ found : List (String × String),
      hasKey (playlist_titles.foldl (fun found desired =>
        pls.foldl (fun found pl =>
          if strContains (pyLower pl.title) (pyLower desired) then dictSet found pl.title pl.id
          else found) found) found) t
      = (hasKey found t || playlist_titles.any (fun d => pls.any (fun pl =>
          decide (pl.title = t) && strContains (pyLower pl.title) (pyLower d)))) by
    rw [h []]
    simp [hasKey]
  induction playlist_titles with
  | nil => intro found; simp
  | cons d rest ih =>
    intro found
    simp only [List.foldl_cons, List.any_cons]
    rw [ih, hasKey_inner_scan]
    rw [Bool.or_assoc]

/-- The matcher's key list stays duplicate-free: duplicate matches for
the same playlist title collapse. -/
theorem nodupKeys_matchPlaylists (playlist_titles : List String) (pls : List Playlist) :
    ((matchPlaylists playlist_titles pls).map (fun kv => kv.1)).Nodup := by
  have hinner : ∀ (desired : String) (found : List (String × String)),
      (found.map (fun kv => kv.1)).Nodup →
      ((pls.foldl (fun found pl =>
        if strContains (pyLower pl.title) (pyLower desired) then dictSet found pl.title pl.id
        else found) found).map (fun kv => kv.1)).Nodup := by
    intro desired
    induction pls with
    | nil => intro found h; simpa using h
    | cons pl rest ih =>
      intro found h
      simp only [List.foldl_cons]
      apply ih
      by_cases hc : strContains (pyLower pl.title) (pyLower desired) = true
      · simp only [hc, ite_true]
        exact nodupKeys_dictSet found pl.title pl.id h
      · simpa [hc] using h
  unfold matchPlaylists
  suffices h : ∀ found : List (String × String), (found.map (fun kv => kv.1)).Nodup →
      ((playlist_titles.foldl (fun found desired =>
        pls.foldl (fun found pl =>
          if strContains (pyLower pl.title) (pyLower desired) then dictSet found pl.title pl.id
          else found) found) found).map (fun kv => kv.1)).Nodup by
    exact h [] (by simp)
  induction playlist_titles with
  | nil => intro found h; simpa using h
  | cons d rest ih =>
    intro found h
    simp only [List.foldl_cons]
    exact ih _ (hinner d found h)

/-- C7: a playlist is selected iff some desired substring occurs
case-insensitively in its title; selected titles all come from the
enumerated playlists; duplicate matches collapse by title; on the
three-playlist fixture, `"lecture"` matches exactly `"Lecture Videos"`
and `"videos"` matches exactly two playlists. -/
theorem c7_fuzzy_title_matching (playlist_titles : List String) (all_playlists : List Playlist) :
    (∀ pl ∈ all_playlists,
      (hasKey (matchPlaylists playlist_titles all_playlists) pl.title = true
        ↔ ∃ d ∈ playlist_titles, strContains (pyLower pl.title) (pyLower d) = true))
    ∧ (∀ t : String, hasKey (matchPlaylists playlist_titles all_playlists) t = true →
        ∃ pl ∈ all_playlists, pl.title = t)
    ∧ ((matchPlaylists playlist_titles all_playlists).map (fun kv => kv.1)).Nodup
    ∧ matchPlaylists ["lecture"] pls3 = [("Lecture Videos", "i1")]
    ∧ (matchPlaylists ["videos"] pls3).map (fun kv => kv.1)
        = ["Lecture Videos", "Recitation Videos"] := by
  refine ⟨?_, ?_, nodupKeys_matchPlaylists _ _, by decide, by decide⟩
  · intro pl hpl
    rw [hasKey_matchPlaylists]
    simp only [List.any_eq_true, Bool.and_eq_true, decide_eq_true_eq]
    constructor
    · rintro ⟨d, hd, pl', _, heq, hcont⟩
      exact ⟨d, hd, heq ▸ hcont⟩
    · rintro ⟨d, hd, hcont⟩
      exact ⟨d, hd, pl, hpl, rfl, hcont⟩
  · intro t ht
    rw [hasKey_matchPlaylists] at ht
    simp only [List.any_eq_true, Bool.and_eq_true, decide_eq_true_eq] at ht
    obtain ⟨d, _, pl, hpl, heq, _⟩ := ht
    exact ⟨pl, hpl, heq⟩

/-- Witness for C7 on the fixture playlists: `"Recitation Videos"` is
selected by the substring `"videos"`. -/
theorem c7_fuzzy_title_matching_witness :
    hasKey (matchPlaylists ["videos"] pls3) "Recitation Videos" = true :=
  ((c7_fuzzy_title_matching ["videos"] pls3).1 ⟨"i2", "Recitation Videos"⟩
    (by decide)).mpr ⟨"videos", by decide, by decide⟩

/-! ### JSON-object lemmas for the ingestion stage -/

theorem JObj.get_set_self (o : JObj) (k : String) (v : JVal) :
    (JObj.set o k v).get k = some v := by
  induction o with
  | nil => simp [JObj.set, JObj.get]
  | cons kv rest ih =>
    by_cases h : kv.1 = k
    · simp [JObj.set, JObj.get, h]
    · simp [JObj.set, JObj.get, h, ih]

theorem JObj.get_set_ne (o : JObj) (k k' : String) (v : JVal) (h : k' ≠ k) :
    (JObj.set o k v).get k' = o.get k' := by
  induction o with
  | nil => simp [JObj.set, JObj.get, Ne.symm h]
  | cons kv rest ih =>
    by_cases hk : kv.1 = k
    · subst hk
      simp only [JObj.set, ite_true, JObj.get]
      rw [if_neg (by intro hh; exact h hh.symm), if_neg (by intro hh; exact h hh.symm)]
    · simp only [JObj.set, hk, ite_false, JObj.get]
      by_cases hk' : kv.1 = k'
      · simp [hk']
      · simp [hk', ih]

theorem JObj.get_update_not_mem (kvs : List (String × JVal)) :
    ∀ (o : JObj) (k : String), k ∉ kvs.map (fun kv => kv.1) →
      (JObj.update o kvs).get k = o.get k := by
  induction kvs with
  | nil => intro o k _; rfl
  | cons kv rest ih =>
    intro o k hk
    simp only [List.map_cons, List.mem_cons] at hk
    push_neg at hk
    show (JObj.update (JObj.set o kv.1 kv.2) rest).get k = o.get k
    rw [ih _ k hk.2]
    exact JObj.get_set_ne o kv.1 k kv.2 hk.1

/-- The status field written by a two-entry `[status, reason]` update. -/
theorem get_status_update_two (r : JObj) (v rv : JVal) :
    (r.update [("status", v), ("reason", rv)]).get "status" = some v := by
  show (JObj.set (JObj.set r "status" v) "reason" rv).get "status" = some v
  rw [JObj.get_set_ne _ _ _ _ (by decide)]
  exact JObj.get_set_self _ _ _

/-- The status field written by the success-branch update. -/
theorem get_status_update_success (r : JObj) (a c u st : JVal) :
    (r.update [("s3_key", a), ("chapters_key", c), ("uploaded_at", u), ("status", st)]).get "status"
      = some st := by
  show (JObj.set _ "status" st).get "status" = some st
  exact JObj.get_set_self _ _ _

/-- Any record the loop body emits is the original resource updated on
outcome keys only, and carries one of the three statuses. -/
theorem processResource_cases (up : String → Except String (String × Option String))
    (now : String) (r rec : JObj) (h : processResource up now r = some rec) :
    ∃ kvs : List (String × JVal), rec = r.update kvs
      ∧ kvs.map (fun kv => kv.1) ⊆ ["status", "reason", "s3_key", "chapters_key", "uploaded_at"]
      ∧ (rec.get "status" = some (JVal.s "success") ∨ rec.get "status" = some (JVal.s "failed")
          ∨ rec.get "status" = some (JVal.s "skipped")) := by
  unfold processResource at h
  split at h
  · -- `r["type"]` raised KeyError
    injection h with h
    subst h
    exact ⟨_, rfl, by intro x hx; simp at hx ⊢; tauto, Or.inr (Or.inl (get_status_update_two r _ _))⟩
  · split at h
    · -- pdf: the item is dropped, no record exists
      simp at h
    · split at h
      · -- video
        split at h
        · -- url is a string: dispatch on the collaborator
          split at h
          · -- collaborator returned a pair: dispatch on audio-key truthiness
            split at h
            · injection h with h
              subst h
              exact ⟨_, rfl, by intro x hx; simp at hx ⊢; tauto,
                Or.inl (get_status_update_success r _ _ _ _)⟩
            · injection h with h
              subst h
              exact ⟨_, rfl, by intro x hx; simp at hx ⊢; tauto,
                Or.inr (Or.inl (get_status_update_two r _ _))⟩
          · injection h with h
            subst h
            exact ⟨_, rfl, by intro x hx; simp at hx ⊢; tauto,
              Or.inr (Or.inl (get_status_update_two r _ _))⟩
        · injection h with h
          subst h
          exact ⟨_, rfl, by intro x hx; simp at hx ⊢; tauto, Or.inr (Or.inl (get_status_update_two r _ _))⟩
        · injection h with h
          subst h
          exact ⟨_, rfl, by intro x hx; simp at hx ⊢; tauto, Or.inr (Or.inl (get_status_update_two r _ _))⟩
      · -- unknown type: skipped
        injection h with h
        subst h
        exact ⟨_, rfl, by intro x hx; simp at hx ⊢; tauto, Or.inr (Or.inr (get_status_update_two r _ _))⟩

/-- The loop drops a resource exactly when its type is `"pdf"`. -/
theorem processResource_isSome (up : String → Except String (String × Option String))
    (now : String) (r : JObj) :
    (processResource up now r).isSome = decide (r.get "type" ≠ some (JVal.s "pdf")) := by
  unfold processResource
  cases htype : r.get "type" with
  | none => simp
  | some t =>
    by_cases hpdf : t = JVal.s "pdf"
    · simp [hpdf]
    · simp only [hpdf, ite_false]
      by_cases hvid : t = JVal.s "video"
      · simp only [hvid, ite_true]
        cases hurl : r.get "url" with
        | none => simp [hpdf]
        | some u =>
          cases u with
          | nul => simp [hpdf]
          | s url =>
            cases hup : up url with
            | error e => simp [hup, hpdf]
            | ok pair =>
              obtain ⟨ak, ck⟩ := pair
              by_cases hak : ak = ""
              · simp [hup, hak, hpdf]
              · simp [hup, hak, hpdf]
      · simp [hvid, hpdf]

theorem length_filterMap_eq {α β : Type} (f : α → Option β) (l : List α) :
    (l.filterMap f).length = (l.filter (fun a => (f a).isSome)).length := by
  induction l with
  | nil => rfl
  | cons a t ih => cases hf : f a <;> simp [List.filterMap_cons, hf, List.filter_cons, ih]

/-- Three-way partition of a record list whose members all carry one of
the three statuses. -/
theorem count_status_partition (l : List JObj)
    (h : ∀ r ∈ l, r.get "status" = some (JVal.s "success")
      ∨ r.get "status" = some (JVal.s "failed") ∨ r.get "status" = some (JVal.s "skipped")) :
    (l.filter (statusIs "success")).length + (l.filter (statusIs "failed")).length
      + (l.filter (statusIs "skipped")).length = l.length := by
  induction l with
  | nil => simp
  | cons r t ih =>
    have ht := ih (fun x hx => h x (List.mem_cons_of_mem _ hx))
    rcases h r (List.mem_cons_self r t) with hs | hs | hs <;>
      simp [List.filter_cons, statusIs, hs] <;> omega

/-- C2 counterexample: a manifest holding one `pdf` Resource produces an
Ingestion Job with `num_total = 1` but an empty record list — the pdf
Resource gets no record at all (in particular no `skipped` record), so
the job does not contain one record per Resource. -/
theorem c2_pdf_dropped_counterexample :
    (run_ingestion upOk "T" [pdfSample]).num_total = 1
    ∧ (run_ingestion upOk "T" [pdfSample]).resources = [] :=
  ⟨rfl, rfl⟩

/-- C2 (amended): `num_total` equals the manifest length, but the record
list only contains one record per non-`pdf` Resource (`pdf` Resources are
silently dropped); `num_success` and `num_failed` equal the sizes of the
success/failed classes of the partition of the emitted records by their
status, and together with the `skipped` class they exhaust the records. -/
theorem c2_job_counts (up : String → Except String (String × Option String))
    (now : String) (rs : List JObj) :
    (run_ingestion up now rs).num_total = rs.length
    ∧ (run_ingestion up now rs).resources.length
        = (rs.filter (fun r => decide (r.get "type" ≠ some (JVal.s "pdf")))).length
    ∧ (run_ingestion up now rs).num_success
        = ((run_ingestion up now rs).resources.filter (statusIs "success")).length
    ∧ (run_ingestion up now rs).num_failed
        = ((run_ingestion up now rs).resources.filter (statusIs "failed")).length
    ∧ (run_ingestion up now rs).num_success + (run_ingestion up now rs).num_failed
        + ((run_ingestion up now rs).resources.filter (statusIs "skipped")).length
        = (run_ingestion up now rs).resources.length := by
  refine ⟨rfl, ?_, rfl, rfl, ?_⟩
  · show (rs.filterMap (processResource up now)).length = _
    rw [length_filterMap_eq]
    congr 1
    apply List.filter_congr
    intro r _
    exact processResource_isSome up now r
  · apply count_status_partition
    intro r hr
    have hr' : r ∈ rs.filterMap (processResource up now) := hr
    obtain ⟨x, _, hx⟩ := List.mem_filterMap.mp hr'
    obtain ⟨kvs, _, _, hst⟩ := processResource_cases up now x r hx
    exact hst

/-- C3: an exception in one item's acquisition is caught at the item
boundary and becomes a `failed` record carrying the exception's message;
the loop is compositional, so remaining items are still processed; on the
five-video fixture whose third item raises, the job has `num_total = 5`,
`num_success = 4`, `num_failed = 1`, and item 3's record is `failed` with
the non-empty reason string. -/
theorem c3_partial_failure_isolation (up : String → Except String (String × Option String))
    (now : String) (r : JObj) (url e : String)
    (htype : r.get "type" = some (JVal.s "video"))
    (hurl : r.get "url" = some (JVal.s url))
    (hup : up url = Except.error e) :
    processResource up now r
        = some (r.update [("status", JVal.s "failed"), ("reason", JVal.s e)])
    ∧ (∀ rs₁ rs₂ : List JObj, (run_ingestion up now (rs₁ ++ rs₂)).resources
        = (run_ingestion up now rs₁).resources ++ (run_ingestion up now rs₂).resources)
    ∧ (run_ingestion up1 "T" fiveVids).num_total = 5
    ∧ (run_ingestion up1 "T" fiveVids).num_success = 4
    ∧ (run_ingestion up1 "T" fiveVids).num_failed = 1
    ∧ ((run_ingestion up1 "T" fiveVids).resources.getD 2 []).get "status"
        = some (JVal.s "failed")
    ∧ ((run_ingestion up1 "T" fiveVids).resources.getD 2 []).get "reason"
        = some (JVal.s "DownloadError: failed")
    ∧ "DownloadError: failed" ≠ "" := by
  refine ⟨?_, ?_, rfl, rfl, rfl, rfl, rfl, by decide⟩
  · unfold processResource
    rw [htype]
    simp only [hurl, hup]
    norm_num
    intro hcontra
    exact absurd hcontra (by decide)
  · intro rs₁ rs₂
    show (rs₁ ++ rs₂).filterMap (processResource up now)
        = rs₁.filterMap (processResource up now) ++ rs₂.filterMap (processResource up now)
    exact List.filterMap_append rs₁ rs₂ (processResource up now)

/-- Witness for C3 at the failing fixture item. -/
theorem c3_partial_failure_isolation_witness :
    processResource up1 "T" (vidRes "u3")
      = some ((vidRes "u3").update
          [("status", JVal.s "failed"), ("reason", JVal.s "DownloadError: failed")]) :=
  (c3_partial_failure_isolation up1 "T" (vidRes "u3") "u3" "DownloadError: failed"
    rfl rfl rfl).1

/-- C10: for a Resource whose keys avoid the five outcome keys, the
record emitted for it agrees with the Resource on every original field —
enrichment only adds outcome fields. -/
theorem c10_enrichment_frame (up : String → Except String (String × Option String))
    (now : String) (r rec : JObj)
    (hdisj : ∀ k ∈ r.map (fun kv => kv.1),
      k ∉ (["status", "reason", "s3_key", "chapters_key", "uploaded_at"] : List String))
    (hrec : processResource up now r = some rec) :
    ∀ k ∈ r.map (fun kv => kv.1), rec.get k = r.get k := by
  obtain ⟨kvs, rfl, hsub, _⟩ := processResource_cases up now r rec hrec
  intro k hk
  apply JObj.get_update_not_mem
  intro hmem
  exact hdisj k hk (hsub hmem)

/-- Witness for C10: the enriched record of a fixture video still returns
the original `url` field. -/
theorem c10_enrichment_frame_witness :
    ((processResource upOk "T" (vidRes "u1")).getD []).get "url" = (vidRes "u1").get "url" :=
  c10_enrichment_frame upOk "T" (vidRes "u1") ((processResource upOk "T" (vidRes "u1")).getD [])
    (by decide) rfl "url" (by decide)

end MultimodalEdu
